import Mathlib

/-!
Verification of the DHCPv6 network client (`dhcpv6/nclient6/client.go`).

The development shallowly embeds the transaction-correlation and retry
engine of the client:

* the pending-transaction registry (`pending` map guarded by `pendingMu`),
  embedded as an association list `Registry` with Go-map-style
  lookup/insert/delete;
* the receive loop's dispatch step (lines 163-175), embedded as `deliver`
  together with an explicit lock-event trace `dispatchTrace`;
* `send` (lines 264-298), embedded as `sendGo`;
* the wait-select inside `SendAndRead` (lines 316-333), embedded as
  `waitLoop` driven by an explicit event script (the script resolves the
  nondeterminism of Go's `select`);
* `retryFn` (lines 344-364), embedded standalone as `retryFnAux` and,
  composed with the per-attempt body, as `sarAux` / `sendAndReadGo`;
* `Close` (lines 111-133), embedded as `closeGo` over an explicit
  lifecycle state;
* the configuration options and the destinations used by `Solicit` and
  `Request`.

Go `time.Duration` is int64 nanoseconds; `timeout *= 2` is embedded as
`dmul2` with explicit two's-complement wraparound.  Blocking operations
are represented by explicit events (a run that would block forever yields
`none`); fuel bounds the unbounded `for` loop of `retryFn`.
-/

set_option autoImplicit false

namespace NClient6

deriving instance DecidableEq for Except

/-- A decoded DHCPv6 message, reduced to the two fields the client core
inspects: the transaction id (`msg.TransactionID`) and the message type
(`msg.MessageType`, used only by matchers). -/
structure Message where
  tid : Nat
  mtype : Nat
  deriving DecidableEq

/-- The distinct Go `error` values that flow through the client core.
Distinct constructors model distinct Go error values, so Lean equality of
`GoErr` is Go's `==` on these errors.  `errDeadlineExceeded` is the
package-internal sentinel returned by an attempt whose `time.After` fires
(lines 301 and 322); `ctxDeadlineExceeded` is `context.DeadlineExceeded`
as produced by `ctx.Err()`; `ctxCanceled` is `context.Canceled`;
`errNoResponse` is `ErrNoResponse`; `txInUse` is the "transaction ID
already in use" error of `send`; `writeErr` is the "error writing packet
to connection" error of `send`. -/
inductive GoErr where
  | errNoResponse
  | errDeadlineExceeded
  | ctxDeadlineExceeded
  | ctxCanceled
  | txInUse (tid : Nat)
  | writeErr
  deriving DecidableEq

/-- The state of one `pendingCh` record (lines 44-51): whether its `done`
channel has been closed by the owning call, the messages sitting in its
buffered delivery channel `ch`, and whether `ch` has been closed. -/
structure PendingCh where
  doneClosed : Bool
  queue : List Message
  chClosed : Bool
  deriving DecidableEq

/-- The `pending` map (`map[dhcpv6.TransactionID]*pendingCh`), embedded as
an association list keyed by transaction id. -/
abbrev Registry := List (Nat × PendingCh)

/-- Go map lookup `c.pending[tid]`. -/
def lookupTid : Registry → Nat → Option PendingCh
  | [], _ => none
  | (k, p) :: rest, t => if k = t then some p else lookupTid rest t

/-- Go map deletion `delete(c.pending, tid)`. -/
def removeTid : Registry → Nat → Registry
  | [], _ => []
  | (k, p) :: rest, t =>
    if k = t then removeTid rest t else (k, p) :: removeTid rest t

/-- Go map update `c.pending[tid] = p` for a key that is present. -/
def setTid : Registry → Nat → PendingCh → Registry
  | [], _, _ => []
  | (k, p) :: rest, t, q =>
    if k = t then (t, q) :: setTid rest t q else (k, p) :: setTid rest t q

/-- The outcome of one dispatch step of the receive loop. -/
inductive DeliverResult where
  | noWaiter
  | removedStale (tid : Nat)
  | enqueued (tid : Nat)
  deriving DecidableEq

/-- The dispatch step of `receiveLoop` for one successfully decoded
message (lines 163-175): look up the message's transaction id in
`pending`; if absent do nothing; if present and the waiter's `done` is
already closed, close its channel and delete the entry; otherwise enqueue
the message on that waiter's channel (`p.ch <- msg`; the select against
`p.done` is resolved by the stored `doneClosed` flag, and the potentially
blocking nature of the enqueue is modelled separately by
`dispatchTrace`). -/
def deliver (r : Registry) (msg : Message) : Registry × DeliverResult :=
  match lookupTid r msg.tid with
  | none => (r, .noWaiter)
  | some p =>
    if p.doneClosed then
      (removeTid r msg.tid, .removedStale msg.tid)
    else
      (setTid r msg.tid { p with queue := p.queue ++ [msg] }, .enqueued msg.tid)

/-- Events of one receive-loop dispatch iteration, for reasoning about
the extent of the `pendingMu` critical section (lines 163-175). -/
inductive LoopEv where
  | evLock
  | evLookup (tid : Nat)
  /-- The `select` whose `p.ch <- msg` arm may block, racing only against
  that waiter's own `p.done`. -/
  | evBlockingSelect (tid : Nat)
  | evCloseDelete (tid : Nat)
  | evUnlock
  deriving DecidableEq

/-- The sequence of lock/dispatch events performed by one receive-loop
iteration for a decoded message, exactly in source order (lines 163-175):
`c.pendingMu.Lock()`; the map lookup; if a live waiter is found, the
select containing the possibly-blocking send (or, for a cancelled waiter,
the close-and-delete); then `c.pendingMu.Unlock()`. -/
def dispatchTrace (r : Registry) (msg : Message) : List LoopEv :=
  match lookupTid r msg.tid with
  | none => [.evLock, .evLookup msg.tid, .evUnlock]
  | some p =>
    if p.doneClosed then
      [.evLock, .evLookup msg.tid, .evCloseDelete msg.tid, .evUnlock]
    else
      [.evLock, .evLookup msg.tid, .evBlockingSelect msg.tid, .evUnlock]

/-- `true` exactly on the unlock event. -/
def isUnlock : LoopEv → Bool
  | .evUnlock => true
  | _ => false

/-- `true` exactly on the possibly-blocking enqueue select. -/
def isBlockingSelect : LoopEv → Bool
  | .evBlockingSelect _ => true
  | _ => false

/-- The property the spec asserts of the receive loop: the lock is
released before the potentially blocking enqueue, i.e. in the dispatch
trace every unlock event precedes every blocking-enqueue event. -/
def releasedBeforeBlockingSend (tr : List LoopEv) : Prop :=
  ∀ i j : Fin tr.length,
    isUnlock (tr.get i) = true → isBlockingSelect (tr.get j) = true → i < j

instance (tr : List LoopEv) : Decidable (releasedBeforeBlockingSend tr) := by
  unfold releasedBeforeBlockingSend
  infer_instance

/-- Two's-complement wraparound of a mathematical integer into int64
(Go `time.Duration` is an int64 nanosecond count). -/
def wrap64 (x : Int) : Int := (x + 2 ^ 63) % 2 ^ 64 - 2 ^ 63

/-- Go `timeout *= 2` on a `time.Duration`. -/
def dmul2 (t : Int) : Int := wrap64 (2 * t)

/-- The result of `(*Client).send` (lines 264-298): the updated `pending`
map, the number of datagrams written to the socket, the number of
registrations performed (entries inserted into `pending`), and the
returned error (`none` is Go `nil`). -/
structure SendOut where
  pending : Registry
  wrote : Nat
  regs : Nat
  err : Option GoErr
  deriving DecidableEq

/-- `(*Client).send` (lines 264-298).  Under the lock: if the transaction
id is already in `pending`, fail with the "transaction ID already in use"
error, leaving the map untouched and writing nothing.  Otherwise insert a
fresh `pendingCh` (open `done`, empty buffered channel) and unlock; then
`conn.WriteTo`: on a closed connection the write fails, `cancel()` runs
(closing `done`, then deleting the entry under the lock) and the write
error is returned; on success one datagram has been written. -/
def sendGo (connClosed : Bool) (r : Registry) (tid : Nat) : SendOut :=
  match lookupTid r tid with
  | some _ => ⟨r, 0, 0, some (.txInUse tid)⟩
  | none =>
    let r1 : Registry := (tid, ⟨false, [], false⟩) :: r
    if connClosed then
      ⟨removeTid r1 tid, 0, 1, some .writeErr⟩
    else
      ⟨r1, 1, 1, none⟩

/-- One event offered to the wait-select of `SendAndRead` (lines
316-333).  Go's `select` picks among ready cases; a script of `WaitEv`
records, in order, which case fired at each turn of the `for` loop. -/
inductive WaitEv where
  /-- `<-c.done`: the client's shutdown signal. -/
  | evShutdown
  /-- `<-time.After(timeout)`: the per-attempt timer. -/
  | evTimeout
  /-- `<-ctx.Done()`, with `ctx.Err()` equal to the given error
  (`ctxCanceled` or `ctxDeadlineExceeded`). -/
  | evCtxDone (e : GoErr)
  /-- `packet := <-ch`: a message arrives on the delivery channel. -/
  | evPacket (m : Message)
  deriving DecidableEq

/-- The wait-select `for` loop of `SendAndRead` (lines 316-333), driven
by the script of fired cases.  Shutdown returns `ErrNoResponse`; the
timer returns the internal sentinel `errDeadlineExceeded`; a fired
context returns `ctx.Err()`; a packet returns successfully if `match` is
`nil` or accepts it, and otherwise the loop continues waiting.  `none`
means every script event was consumed without resolving the select (the
call would stay blocked). -/
def waitLoop (mtch : Option (Message → Bool)) : List WaitEv → Option (Except GoErr Message)
  | [] => none
  | ev :: rest =>
    match ev with
    | .evShutdown => some (.error .errNoResponse)
    | .evTimeout => some (.error .errDeadlineExceeded)
    | .evCtxDone e => some (.error e)
    | .evPacket m =>
      match mtch with
      | none => some (.ok m)
      | some f => if f m then some (.ok m) else waitLoop mtch rest

/-- The result of one attempt (one invocation of the closure passed to
`retryFn` by `SendAndRead`, lines 309-334): updated registry, datagrams
written, registrations performed, and the closure's return value
(`none` = the attempt blocked forever; `some (.ok m)` = the closure set
`response = m` and returned `nil`; `some (.error e)` = it returned
`e`). -/
structure AttemptOut where
  pending : Registry
  wrote : Nat
  regs : Nat
  result : Option (Except GoErr Message)
  deriving DecidableEq

/-- One attempt of `SendAndRead` (the closure at lines 309-334): call
`send`; on a send error return it at once; otherwise run the wait-select
and finally run the deferred `rem` (`cancel`), which closes `done` and
deletes the transaction from `pending`. -/
def attemptGo (connClosed : Bool) (r : Registry) (tid : Nat)
    (mtch : Option (Message → Bool)) (evs : List WaitEv) : AttemptOut :=
  let s := sendGo connClosed r tid
  match s.err with
  | some e => ⟨s.pending, s.wrote, s.regs, some (.error e)⟩
  | none =>
    match waitLoop mtch evs with
    | none => ⟨s.pending, s.wrote, s.regs, none⟩
    | some res => ⟨removeTid s.pending tid, s.wrote, s.regs, some res⟩

/-- Cumulative trace of one `SendAndRead` call: final registry, total
datagrams written, total registrations performed, the timeout passed to
each attempt that ran, and `retryFn`'s return value (`none` = the run did
not finish within the given fuel, e.g. an unlimited-retry loop or a
blocked attempt). -/
structure SAROut where
  pending : Registry
  wrote : Nat
  regs : Nat
  timeouts : List Int
  result : Option (Except GoErr Message)
  deriving DecidableEq

/-- `retryFn` (lines 344-364) applied to the `SendAndRead` attempt body,
with fuel bounding the number of loop iterations.  The loop guard is
`i < c.retry || c.retry < 0`; when it fails, `retryFn` returns
`errDeadlineExceeded` (line 363).  Inside the loop the attempt runs with
the current timeout; `retryFn`'s `switch` retries (doubling the timeout)
exactly when the attempt returned `context.DeadlineExceeded`, and
propagates every other outcome immediately. -/
def sarAux (connClosed : Bool) (retry : Int) (mtch : Option (Message → Bool))
    (script : Nat → List WaitEv) (tid : Nat) :
    Nat → Registry → Nat → Int → SAROut
  | fuel, r, i, t =>
    if (i : Int) < retry ∨ retry < 0 then
      match fuel with
      | 0 => ⟨r, 0, 0, [], none⟩
      | fuel' + 1 =>
        let a := attemptGo connClosed r tid mtch (script i)
        match a.result with
        | none => ⟨a.pending, a.wrote, a.regs, [t], none⟩
        | some (.error GoErr.ctxDeadlineExceeded) =>
          let rest := sarAux connClosed retry mtch script tid fuel' a.pending (i + 1) (dmul2 t)
          ⟨rest.pending, a.wrote + rest.wrote, a.regs + rest.regs,
            t :: rest.timeouts, rest.result⟩
        | some other => ⟨a.pending, a.wrote, a.regs, [t], some other⟩
    else
      ⟨r, 0, 0, [], some (.error .errDeadlineExceeded)⟩

/-- A whole `SendAndRead` call started on an empty registry with attempt
index 0 and the configured base timeout. -/
def sendAndReadGo (retry : Int) (baseTimeout : Int) (connClosed : Bool) (tid : Nat)
    (mtch : Option (Message → Bool)) (script : Nat → List WaitEv) (fuel : Nat) : SAROut :=
  sarAux connClosed retry mtch script tid fuel [] 0 baseTimeout

/-- The final error mapping of `SendAndRead` (lines 335-341): the
internal `errDeadlineExceeded` (whether produced by retry exhaustion at
line 363 or propagated from a timed-out attempt) becomes `ErrNoResponse`;
any other error is returned as is; otherwise the response is returned. -/
def sendAndReadRes (o : SAROut) : Option (Except GoErr Message) :=
  match o.result with
  | none => none
  | some (.error e) =>
    if e = .errDeadlineExceeded then some (.error .errNoResponse) else some (.error e)
  | some (.ok m) => some (.ok m)

/-- The result of the bare `retryFn` loop, keeping the fall-out-of-loop
return (line 363) distinct from a propagated attempt outcome so that
"terminates by retry exhaustion" is expressible.  (`SendAndRead` merges
the two: both are the same Go error value `errDeadlineExceeded`.) -/
inductive RetryRes where
  /-- The loop guard `i < c.retry || c.retry < 0` failed: `retryFn`
  returned `errDeadlineExceeded` at line 363 (retry exhaustion). -/
  | exhausted
  /-- An attempt outcome was propagated: `nil` (`none`) from the `case
  nil` arm, or any error other than `context.DeadlineExceeded` from the
  `default` arm. -/
  | done (e : Option GoErr)
  deriving DecidableEq

/-- `retryFn` (lines 344-364) in isolation, viewed as a pure function of
the retry count and the stream of per-attempt outcomes (`outs i` is what
the `i`-th invocation of `fn` returns; `none` is Go `nil`).  The timeout
starts at the base value and is doubled (`dmul2`) exactly when an attempt
returns `context.DeadlineExceeded`; fuel bounds the loop, `none` meaning
the loop was still running after `fuel` iterations. -/
def retryFnAux (retry : Int) (outs : Nat → Option GoErr) :
    Nat → Nat → Int → Option RetryRes
  | fuel, i, t =>
    if (i : Int) < retry ∨ retry < 0 then
      match fuel with
      | 0 => none
      | fuel' + 1 =>
        if outs i = some .ctxDeadlineExceeded then
          retryFnAux retry outs fuel' (i + 1) (dmul2 t)
        else
          some (.done (outs i))
    else
      some .exhausted

/-- A UDP address (`net.UDPAddr`), reduced to the textual IP and port. -/
structure Addr where
  ip : String
  port : Nat
  deriving DecidableEq

/-- `AllDHCPRelayAgentsAndServers` (lines 23-26); `DefaultServerPort` is 547. -/
def allDHCPRelayAgentsAndServers : Addr := ⟨"ff02::1:2", 547⟩

/-- `AllDHCPServers` (lines 27-30). -/
def allDHCPServers : Addr := ⟨"ff05::1:3", 547⟩

/-- The configurable fields of `Client` (lines 54-82) that the options
touch: base timeout (nanoseconds), retry count, per-transaction buffer
capacity, and the configured server address. -/
structure ClientCfg where
  timeout : Int
  retry : Int
  bufferCap : Nat
  serverAddr : Addr
  deriving DecidableEq

/-- The defaults set by `New` (lines 87-96): 5 s timeout, 3 retries,
`AllDHCPServers`, buffer capacity 5. -/
def defaultCfg : ClientCfg := ⟨5 * 1000000000, 3, 5, allDHCPServers⟩

/-- `WithTimeout` (lines 192-196). -/
def withTimeout (d : Int) (c : ClientCfg) : ClientCfg := { c with timeout := d }

/-- `WithRetry` (lines 201-205). -/
def withRetry (n : Int) (c : ClientCfg) : ClientCfg := { c with retry := n }

/-- `WithBroadcastAddr` (lines 215-219). -/
def withBroadcastAddr (a : Addr) (c : ClientCfg) : ClientCfg := { c with serverAddr := a }

/-- The destination `Solicit` passes to `SendAndRead` (line 240): the
package-level constant `AllDHCPServers`, whatever the client's
`serverAddr` field holds. -/
def solicitDest (_c : ClientCfg) : Addr := allDHCPServers

/-- The destination `Request` passes to `SendAndRead` (line 255):
likewise the constant `AllDHCPServers`. -/
def requestDest (_c : ClientCfg) : Addr := allDHCPServers

/-- The client lifecycle state touched by `Close` (lines 111-133):
the `closed` flag (CAS-guarded), whether the socket has been closed,
whether `done` has been closed, and whether `wg.Wait()` has been run to
join the receive loop.  `connCloseErr` is the environment's answer to
`conn.Close()` on the first close. -/
structure LifeState where
  closedFlag : Bool
  connClosed : Bool
  doneClosed : Bool
  loopJoined : Bool
  connCloseErr : Option GoErr
  deriving DecidableEq

/-- The teardown actions of `Close`, in source order. -/
inductive CloseEv where
  | evConnClose
  | evCloseDone
  | evWgWait
  deriving DecidableEq

/-- `(*Client).Close` (lines 111-133): the CAS on `closed` lets only the
first call through, returning Go `nil` otherwise; the first call closes
the socket, closes `done`, waits for the receive loop, and returns
`conn.Close()`'s error.  The returned list is the teardown actions
performed, in order. -/
def closeGo (s : LifeState) : LifeState × Option GoErr × List CloseEv :=
  if s.closedFlag then
    (s, none, [])
  else
    ({ s with closedFlag := true, connClosed := true, doneClosed := true, loopJoined := true },
      s.connCloseErr, [.evConnClose, .evCloseDone, .evWgWait])

/-- The state reached after a further `n` calls to `Close`. -/
def closeIter (n : Nat) (s : LifeState) : LifeState :=
  match n with
  | 0 => s
  | m + 1 => closeIter m (closeGo s).1

/-- Event script in which every attempt's select is resolved by the
per-attempt timer firing (no response ever arrives). -/
def scriptTimeout : Nat → List WaitEv := fun _ => [WaitEv.evTimeout]

/-- Event script in which every attempt observes the caller's context
with an already-expired deadline (`ctx.Err() = context.DeadlineExceeded`). -/
def scriptCtxDeadline : Nat → List WaitEv := fun _ => [WaitEv.evCtxDone .ctxDeadlineExceeded]

/-- Event script in which every attempt observes the caller's context
explicitly cancelled (`ctx.Err() = context.Canceled`). -/
def scriptCtxCanceled : Nat → List WaitEv := fun _ => [WaitEv.evCtxDone .ctxCanceled]

/-- Event script in which every attempt observes the client's shutdown
signal (`c.done` closed by `Close`). -/
def scriptShutdown : Nat → List WaitEv := fun _ => [WaitEv.evShutdown]

/-- Outcome stream in which every attempt reports the per-attempt-timeout
sentinel `errDeadlineExceeded` (the value the `SendAndRead` closure
returns when `time.After` fires, line 322). -/
def outsTimeoutSentinel : Nat → Option GoErr := fun _ => some .errDeadlineExceeded

/-- Outcome stream in which every attempt reports
`context.DeadlineExceeded`. -/
def outsCtxDeadline : Nat → Option GoErr := fun _ => some .ctxDeadlineExceeded

/-- Concrete registry holding one live (uncancelled) waiter under
transaction id 7, for the lock-extent counterexample. -/
def reg9 : Registry := [(7, ⟨false, [], false⟩)]

/-- Concrete message bearing transaction id 7. -/
def msg9 : Message := ⟨7, 2⟩

/-- Concrete registry holding one live waiter under transaction id 7,
for the duplicate-registration theorem's witness. -/
def reg6 : Registry := [(7, ⟨false, [], false⟩)]

/-- Concrete message bearing transaction id 5, for the demultiplexing
witness. -/
def msg5 : Message := ⟨5, 1⟩

/-- A fresh, open client lifecycle state whose `conn.Close()` succeeds. -/
def freshLife : LifeState := ⟨false, false, false, false, none⟩

/-!  ## Theorems  -/

theorem lookupTid_removeTid_ne (r : Registry) (t y : Nat) (h : y ≠ t) :
    lookupTid (removeTid r t) y = lookupTid r y := by
  induction r with
  | nil => rfl
  | cons kv rest ih =>
    obtain ⟨k, p⟩ := kv
    by_cases hk : k = t
    · subst hk
      have hky : ¬(k = y) := fun e => h e.symm
      simp [removeTid, lookupTid, hky, ih]
    · by_cases hky : k = y
      · subst hky
        simp [removeTid, lookupTid, hk]
      · simp [removeTid, lookupTid, hk, hky, ih]

theorem lookupTid_setTid_ne (r : Registry) (t y : Nat) (q : PendingCh) (h : y ≠ t) :
    lookupTid (setTid r t q) y = lookupTid r y := by
  induction r with
  | nil => rfl
  | cons kv rest ih =>
    obtain ⟨k, p⟩ := kv
    by_cases hk : k = t
    · subst hk
      have hky : ¬(k = y) := fun e => h e.symm
      simp [setTid, lookupTid, hky, ih]
    · by_cases hky : k = y
      · subst hky
        simp [setTid, lookupTid, hk]
      · simp [setTid, lookupTid, hk, hky, ih]

theorem lookupTid_setTid_self (r : Registry) (t : Nat) (p q : PendingCh)
    (h : lookupTid r t = some p) : lookupTid (setTid r t q) t = some q := by
  induction r with
  | nil => simp [lookupTid] at h
  | cons kv rest ih =>
    obtain ⟨k, p0⟩ := kv
    by_cases hk : k = t
    · simp [setTid, if_pos hk, lookupTid]
    · simp only [lookupTid, if_neg hk] at h
      simp only [setTid, if_neg hk, lookupTid, if_neg hk]
      exact ih h

theorem removeTid_of_lookup_none (r : Registry) (t : Nat)
    (h : lookupTid r t = none) : removeTid r t = r := by
  induction r with
  | nil => rfl
  | cons kv rest ih =>
    obtain ⟨k, p⟩ := kv
    by_cases hk : k = t
    · simp [lookupTid, if_pos hk] at h
    · simp only [lookupTid, if_neg hk] at h
      simp only [removeTid, if_neg hk, ih h]

/-- Helper: an attempt on an open connection with a fresh transaction id
whose wait-select resolves to `res` registers exactly once, writes
exactly one datagram, returns `res`, and restores the registry (its
deferred `rem` removes the entry it inserted). -/
theorem attemptGo_of_fresh (r : Registry) (tid : Nat) (mtch : Option (Message → Bool))
    (evs : List WaitEv) (res : Except GoErr Message)
    (h1 : lookupTid r tid = none) (h2 : waitLoop mtch evs = some res) :
    attemptGo false r tid mtch evs = ⟨r, 1, 1, some res⟩ := by
  have hrem : removeTid ((tid, ⟨false, [], false⟩) :: r) tid = r := by
    simp [removeTid, removeTid_of_lookup_none r tid h1]
  simp [attemptGo, sendGo, h1, h2, hrem]

/-- Helper: an attempt on a closed connection with a fresh transaction id
registers once, fails the write with no datagram sent, returns the write
error, and restores the registry (the `cancel` inside `send` removes the
entry). -/
theorem attemptGo_of_closed (r : Registry) (tid : Nat) (mtch : Option (Message → Bool))
    (evs : List WaitEv) (h1 : lookupTid r tid = none) :
    attemptGo true r tid mtch evs = ⟨r, 0, 1, some (.error .writeErr)⟩ := by
  have hrem : removeTid ((tid, ⟨false, [], false⟩) :: r) tid = r := by
    simp [removeTid, removeTid_of_lookup_none r tid h1]
  simp [attemptGo, sendGo, h1, hrem]

/-- Helper: one unrolling of the `retryFn` loop in the retrying case
(the attempt returned `context.DeadlineExceeded`). -/
theorem sarAux_step_retry (cc : Bool) (retry : Int) (mtch : Option (Message → Bool))
    (script : Nat → List WaitEv) (tid fuel : Nat) (r : Registry) (i : Nat) (t : Int)
    (a : AttemptOut) (ha : attemptGo cc r tid mtch (script i) = a)
    (hres : a.result = some (.error .ctxDeadlineExceeded))
    (hperm : (i : Int) < retry ∨ retry < 0) :
    sarAux cc retry mtch script tid (fuel + 1) r i t =
      ⟨(sarAux cc retry mtch script tid fuel a.pending (i + 1) (dmul2 t)).pending,
       a.wrote + (sarAux cc retry mtch script tid fuel a.pending (i + 1) (dmul2 t)).wrote,
       a.regs + (sarAux cc retry mtch script tid fuel a.pending (i + 1) (dmul2 t)).regs,
       t :: (sarAux cc retry mtch script tid fuel a.pending (i + 1) (dmul2 t)).timeouts,
       (sarAux cc retry mtch script tid fuel a.pending (i + 1) (dmul2 t)).result⟩ := by
  obtain ⟨ap, aw, ar, ares⟩ := a
  simp only [AttemptOut.result] at hres
  subst hres
  simp only [sarAux, if_pos hperm, ha]

/-- Helper: one unrolling of the `retryFn` loop in the stopping case (the
attempt returned anything other than `context.DeadlineExceeded`). -/
theorem sarAux_step_stop (cc : Bool) (retry : Int) (mtch : Option (Message → Bool))
    (script : Nat → List WaitEv) (tid fuel : Nat) (r : Registry) (i : Nat) (t : Int)
    (a : AttemptOut) (res : Except GoErr Message)
    (ha : attemptGo cc r tid mtch (script i) = a)
    (hres : a.result = some res) (hne : res ≠ .error .ctxDeadlineExceeded)
    (hperm : (i : Int) < retry ∨ retry < 0) :
    sarAux cc retry mtch script tid (fuel + 1) r i t =
      ⟨a.pending, a.wrote, a.regs, [t], some res⟩ := by
  obtain ⟨ap, aw, ar, ares⟩ := a
  simp only [AttemptOut.result] at hres
  subst hres
  match res with
  | .ok m => simp only [sarAux, if_pos hperm, ha]
  | .error GoErr.errNoResponse => simp only [sarAux, if_pos hperm, ha]
  | .error GoErr.errDeadlineExceeded => simp only [sarAux, if_pos hperm, ha]
  | .error GoErr.ctxDeadlineExceeded => exact absurd rfl hne
  | .error GoErr.ctxCanceled => simp only [sarAux, if_pos hperm, ha]
  | .error (GoErr.txInUse x) => simp only [sarAux, if_pos hperm, ha]
  | .error GoErr.writeErr => simp only [sarAux, if_pos hperm, ha]

/-- C1.  The claim says: with retry count N ≥ 0 and no matching response
ever arriving, `SendAndRead` sends exactly N+1 datagrams with per-attempt
timeouts t, 2t, 4t, ..., and then returns `ErrNoResponse`.  The code
diverges: an attempt whose timer fires returns the sentinel
`errDeadlineExceeded` (line 322), which `retryFn`'s `switch` does not
recognise (it retries only on `context.DeadlineExceeded`, line 354), so
the first timeout ends the call.  At retry count 2 and base timeout 100
the run writes exactly one datagram with the single timeout 100 — not
three datagrams at 100, 200, 400 — and returns `ErrNoResponse`; at retry
count 0 the loop guard `i < c.retry` fails immediately and the call
returns `ErrNoResponse` having sent nothing. -/
theorem sendAndRead_timeout_no_retransmission :
    (sendAndReadGo 2 100 false 42 none scriptTimeout 10).wrote = 1 ∧
    (sendAndReadGo 2 100 false 42 none scriptTimeout 10).timeouts = [100] ∧
    sendAndReadRes (sendAndReadGo 2 100 false 42 none scriptTimeout 10) =
      some (.error .errNoResponse) ∧
    (sendAndReadGo 2 100 false 42 none scriptTimeout 10).wrote ≠ 2 + 1 ∧
    (sendAndReadGo 0 100 false 42 none scriptTimeout 10).wrote = 0 ∧
    sendAndReadRes (sendAndReadGo 0 100 false 42 none scriptTimeout 10) =
      some (.error .errNoResponse) := by
  decide

/-- C2.  The claim says: whenever the caller's context fires during a
`SendAndRead` wait — by cancel or by the context's own deadline — the
call ends immediately with that context error propagated verbatim, with
no further attempt and no further datagram.  The code diverges for the
deadline case: the attempt returns `ctx.Err() = context.DeadlineExceeded`
(line 325), which is exactly the value `retryFn` retries on (line 354),
so the call re-sends and finally returns `ErrNoResponse`.  With retry
count 2, base timeout 100 and a context whose deadline has expired, the
run writes two datagrams (timeouts 100 then 200) and returns
`ErrNoResponse`, not the context's error; by contrast an explicitly
cancelled context (`context.Canceled`) does stop after one datagram with
the error propagated verbatim. -/
theorem sendAndRead_ctx_deadline_retried :
    (sendAndReadGo 2 100 false 42 none scriptCtxDeadline 10).wrote = 2 ∧
    (sendAndReadGo 2 100 false 42 none scriptCtxDeadline 10).timeouts = [100, 200] ∧
    sendAndReadRes (sendAndReadGo 2 100 false 42 none scriptCtxDeadline 10) =
      some (.error .errNoResponse) ∧
    sendAndReadRes (sendAndReadGo 2 100 false 42 none scriptCtxDeadline 10) ≠
      some (.error .ctxDeadlineExceeded) ∧
    (sendAndReadGo 2 100 false 42 none scriptCtxCanceled 10).wrote = 1 ∧
    sendAndReadRes (sendAndReadGo 2 100 false 42 none scriptCtxCanceled 10) =
      some (.error .ctxCanceled) := by
  decide

/-- C3.  The claim says: `retryFn`, as a pure function of the per-attempt
outcomes, doubles the timeout and retries on a timeout outcome, stops at
once on any other outcome, and with a negative retry count never
terminates by retry exhaustion (only a non-timeout outcome ends it).  In
this program the timeout outcome of an attempt is the sentinel
`errDeadlineExceeded` (line 322), and `retryFn` diverges from the claim:
it stops at once on that value (its `switch` only retries on
`context.DeadlineExceeded`).  With unlimited retries (retry = -1) and
every attempt reporting the timeout sentinel, `retryFn` terminates after
the very first attempt, propagating the sentinel; with every attempt
reporting `context.DeadlineExceeded` (a caller-cancellation outcome) it
keeps retrying (still running after 5 iterations), and with retry = 2 it
terminates by exhaustion after consuming its attempts on that error. -/
theorem retryFn_sentinel_mismatch :
    retryFnAux (-1) outsTimeoutSentinel 5 0 100 =
      some (.done (some .errDeadlineExceeded)) ∧
    retryFnAux (-1) outsCtxDeadline 5 0 100 = none ∧
    retryFnAux 2 outsCtxDeadline 10 0 100 = some .exhausted := by
  decide

/-- C4 counterexample.  The claim says a logical `SendAndRead` call
performs exactly one registration of its transaction id, reused across
all retry attempts.  In the run with retry count 3 against a context
whose deadline has expired (the only condition under which this code
retries), three attempts run and three registrations are performed —
refuting "exactly one registration per logical call". -/
theorem sendAndRead_registration_per_attempt_cex :
    (sendAndReadGo 3 100 false 42 none scriptCtxDeadline 10).regs = 3 ∧
    ¬((sendAndReadGo 3 100 false 42 none scriptCtxDeadline 10).regs = 1) := by
  decide

/-- C4 amended.  Each attempt performs its own registration: on a fresh
transaction id the attempt registers exactly once before writing its one
datagram, and its deferred `rem` tears that registration down before the
attempt returns, restoring the registry; when `retryFn` retries, the next
loop iteration repeats this from the restored registry (same transaction
id, identical datagram, fresh registration and fresh queue), as the
unrolling in the second conjunct shows.  Attempts are sequential, so at
most one registration for the id exists at any instant. -/
theorem attempt_registration_lifecycle (r : Registry) (tid : Nat)
    (mtch : Option (Message → Bool)) (evs : List WaitEv) (res : Except GoErr Message)
    (retry : Int) (script : Nat → List WaitEv) (i fuel : Nat) (t : Int)
    (h1 : lookupTid r tid = none) (h2 : waitLoop mtch evs = some res) :
    attemptGo false r tid mtch evs = ⟨r, 1, 1, some res⟩ ∧
    (((i : Int) < retry ∨ retry < 0) → script i = evs →
      res = .error .ctxDeadlineExceeded →
      sarAux false retry mtch script tid (fuel + 1) r i t =
        ⟨(sarAux false retry mtch script tid fuel r (i + 1) (dmul2 t)).pending,
         1 + (sarAux false retry mtch script tid fuel r (i + 1) (dmul2 t)).wrote,
         1 + (sarAux false retry mtch script tid fuel r (i + 1) (dmul2 t)).regs,
         t :: (sarAux false retry mtch script tid fuel r (i + 1) (dmul2 t)).timeouts,
         (sarAux false retry mtch script tid fuel r (i + 1) (dmul2 t)).result⟩) := by
  have hatt : attemptGo false r tid mtch evs = ⟨r, 1, 1, some res⟩ :=
    attemptGo_of_fresh r tid mtch evs res h1 h2
  refine ⟨hatt, fun hperm hsc hres => ?_⟩
  subst hsc
  subst hres
  exact sarAux_step_retry false retry mtch script tid fuel r i t
    ⟨r, 1, 1, some (.error .ctxDeadlineExceeded)⟩ hatt rfl hperm

/-- C4 witness. -/
theorem attempt_registration_lifecycle_witness :
    attemptGo false [] 42 none [WaitEv.evCtxDone .ctxDeadlineExceeded] =
      ⟨[], 1, 1, some (.error .ctxDeadlineExceeded)⟩ :=
  (attempt_registration_lifecycle [] 42 none [WaitEv.evCtxDone .ctxDeadlineExceeded]
    (.error .ctxDeadlineExceeded) 2 scriptCtxDeadline 0 3 100 rfl rfl).1

/-- Helper: the dispatch step when no waiter is registered. -/
theorem deliver_of_none (r : Registry) (msg : Message)
    (h : lookupTid r msg.tid = none) : deliver r msg = (r, .noWaiter) := by
  unfold deliver
  rw [h]

/-- Helper: the dispatch step when the registered waiter has already
closed its `done` signal. -/
theorem deliver_of_stale (r : Registry) (msg : Message) (p : PendingCh)
    (h : lookupTid r msg.tid = some p) (hd : p.doneClosed = true) :
    deliver r msg = (removeTid r msg.tid, .removedStale msg.tid) := by
  unfold deliver
  rw [h]
  simp [hd]

/-- Helper: the dispatch step when the registered waiter is live. -/
theorem deliver_of_live (r : Registry) (msg : Message) (p : PendingCh)
    (h : lookupTid r msg.tid = some p) (hd : p.doneClosed = false) :
    deliver r msg =
      (setTid r msg.tid { p with queue := p.queue ++ [msg] }, .enqueued msg.tid) := by
  unfold deliver
  rw [h]
  simp [hd]

/-- C5.  The receive loop demultiplexes exactly: a dispatched message can
only ever be enqueued under its own transaction id; when it is enqueued,
it is appended to precisely that waiter's queue; the entry of every other
transaction id is untouched by the dispatch; and when no waiter is
registered under the message's id, the registry is returned unchanged
with the message silently dropped. -/
theorem deliver_exact_demux (r : Registry) (msg : Message) :
    (∀ t, (deliver r msg).2 = .enqueued t → t = msg.tid) ∧
    ((deliver r msg).2 = .enqueued msg.tid →
      ∃ p, lookupTid r msg.tid = some p ∧
        lookupTid (deliver r msg).1 msg.tid =
          some { p with queue := p.queue ++ [msg] }) ∧
    (∀ y, y ≠ msg.tid → lookupTid (deliver r msg).1 y = lookupTid r y) ∧
    (lookupTid r msg.tid = none → deliver r msg = (r, .noWaiter)) := by
  cases h : lookupTid r msg.tid with
  | none =>
    rw [deliver_of_none r msg h]
    refine ⟨fun t ht => ?_, fun ht => ?_, fun y _ => rfl, fun _ => rfl⟩
    · exact absurd ht (by simp)
    · exact absurd ht (by simp)
  | some p =>
    cases hd : p.doneClosed with
    | true =>
      rw [deliver_of_stale r msg p h hd]
      refine ⟨fun t ht => ?_, fun ht => ?_, fun y hy => ?_, fun hn => ?_⟩
      · exact absurd ht (by simp)
      · exact absurd ht (by simp)
      · exact lookupTid_removeTid_ne r msg.tid y hy
      · exact absurd hn (by simp)
    | false =>
      rw [deliver_of_live r msg p h hd]
      refine ⟨fun t ht => ?_, fun ht => ?_, fun y hy => ?_, fun hn => ?_⟩
      · simpa using ht.symm
      · exact ⟨p, rfl, lookupTid_setTid_self r msg.tid p _ h⟩
      · exact lookupTid_setTid_ne r msg.tid y _ hy
      · exact absurd hn (by simp)

/-- C5 witness. -/
theorem deliver_exact_demux_witness : deliver [] msg5 = ([], .noWaiter) :=
  (deliver_exact_demux [] msg5).2.2.2 rfl

/-- C6.  `send` under a transaction id that is already live returns the
"transaction ID already in use" error to the caller, leaves the registry
exactly as it was (in particular the existing waiter's registration and
queue), performs no registration and writes no datagram. -/
theorem send_live_tid_rejected (connClosed : Bool) (r : Registry) (tid : Nat)
    (p : PendingCh) (h : lookupTid r tid = some p) :
    sendGo connClosed r tid = ⟨r, 0, 0, some (.txInUse tid)⟩ := by
  unfold sendGo
  rw [h]

/-- C6 witness. -/
theorem send_live_tid_rejected_witness :
    sendGo false reg6 7 = ⟨reg6, 0, 0, some (.txInUse 7)⟩ :=
  send_live_tid_rejected false reg6 7 ⟨false, [], false⟩ rfl

/-- C7 counterexample.  The claim says every call started after `Close`
terminates with `ErrNoResponse`.  A `SendAndRead` started after the
socket is closed fails inside `send`: `conn.WriteTo` errors, and the
call returns the "error writing packet to connection" error — not
`ErrNoResponse`. -/
theorem post_close_send_error_cex :
    sendAndReadRes (sendAndReadGo 3 100 true 42 none scriptTimeout 10) =
      some (.error .writeErr) ∧
    ¬(sendAndReadRes (sendAndReadGo 3 100 true 42 none scriptTimeout 10) =
      some (.error .errNoResponse)) := by
  decide

/-- C7 amended.  After the shutdown signal is raised: an in-flight
`SendAndRead` attempt whose wait-select observes the shutdown channel
returns `ErrNoResponse`, the retry loop stops there with no further
attempt or datagram, and the call's final result is `ErrNoResponse`;
whereas a call whose `send` runs after the socket is closed fails with
the connection-write error instead of `ErrNoResponse`. -/
theorem shutdown_terminates_with_no_response (retry : Int)
    (mtch : Option (Message → Bool)) (script : Nat → List WaitEv)
    (tid i fuel : Nat) (r : Registry) (t : Int) (rest : List WaitEv)
    (hperm : (i : Int) < retry ∨ retry < 0)
    (h1 : lookupTid r tid = none)
    (hs : script i = WaitEv.evShutdown :: rest) :
    sarAux false retry mtch script tid (fuel + 1) r i t =
      ⟨r, 1, 1, [t], some (.error .errNoResponse)⟩ ∧
    sendAndReadRes (sarAux false retry mtch script tid (fuel + 1) r i t) =
      some (.error .errNoResponse) ∧
    (∀ r2 : Registry, lookupTid r2 tid = none →
      sarAux true retry mtch script tid (fuel + 1) r2 i t =
        ⟨r2, 0, 1, [t], some (.error .writeErr)⟩ ∧
      sendAndReadRes (sarAux true retry mtch script tid (fuel + 1) r2 i t) =
        some (.error .writeErr)) := by
  have hw : waitLoop mtch (script i) = some (.error .errNoResponse) := by
    rw [hs]
    rfl
  have hatt : attemptGo false r tid mtch (script i) =
      ⟨r, 1, 1, some (.error .errNoResponse)⟩ :=
    attemptGo_of_fresh r tid mtch (script i) (.error .errNoResponse) h1 hw
  have hstep : sarAux false retry mtch script tid (fuel + 1) r i t =
      ⟨r, 1, 1, [t], some (.error .errNoResponse)⟩ :=
    sarAux_step_stop false retry mtch script tid fuel r i t
      ⟨r, 1, 1, some (.error .errNoResponse)⟩ (.error .errNoResponse)
      hatt rfl (by simp) hperm
  refine ⟨hstep, ?_, fun r2 h2 => ?_⟩
  · rw [hstep]
    rfl
  · have hatt2 : attemptGo true r2 tid mtch (script i) =
        ⟨r2, 0, 1, some (.error .writeErr)⟩ :=
      attemptGo_of_closed r2 tid mtch (script i) h2
    have hstep2 : sarAux true retry mtch script tid (fuel + 1) r2 i t =
        ⟨r2, 0, 1, [t], some (.error .writeErr)⟩ :=
      sarAux_step_stop true retry mtch script tid fuel r2 i t
        ⟨r2, 0, 1, some (.error .writeErr)⟩ (.error .writeErr)
        hatt2 rfl (by simp) hperm
    refine ⟨hstep2, ?_⟩
    rw [hstep2]
    rfl

/-- C7 witness. -/
theorem shutdown_terminates_with_no_response_witness :
    sarAux false 3 none scriptShutdown 42 1 [] 0 100 =
      ⟨[], 1, 1, [100], some (.error .errNoResponse)⟩ :=
  (shutdown_terminates_with_no_response 3 none scriptShutdown 42 0 0 [] 100 []
    (Or.inl (by decide)) rfl rfl).1

/-- C8.  `Close` is idempotent: from an open client the first call
performs the teardown in source order — close the socket, close `done`,
join the receive loop — and returns `conn.Close()`'s result; any call on
an already-closed client returns Go `nil` without touching any state;
and any number of further calls leave the state fixed. -/
theorem close_idempotent (s : LifeState) (h : s.closedFlag = false) :
    closeGo s =
      ({ s with closedFlag := true, connClosed := true,
                doneClosed := true, loopJoined := true },
        s.connCloseErr, [.evConnClose, .evCloseDone, .evWgWait]) ∧
    (∀ s2 : LifeState, s2.closedFlag = true → closeGo s2 = (s2, none, [])) ∧
    (∀ n : Nat, closeIter n (closeGo s).1 = (closeGo s).1) := by
  have hfirst : closeGo s =
      ({ s with closedFlag := true, connClosed := true,
                doneClosed := true, loopJoined := true },
        s.connCloseErr, [.evConnClose, .evCloseDone, .evWgWait]) := by
    unfold closeGo
    rw [h]
    rfl
  have hclosed : ∀ s2 : LifeState, s2.closedFlag = true →
      closeGo s2 = (s2, none, []) := by
    intro s2 h2
    unfold closeGo
    rw [h2]
    rfl
  refine ⟨hfirst, hclosed, fun n => ?_⟩
  have hflag : (closeGo s).1.closedFlag = true := by
    rw [hfirst]
  induction n with
  | zero => rfl
  | succ m ih =>
    show closeIter m (closeGo (closeGo s).1).1 = (closeGo s).1
    rw [hclosed (closeGo s).1 hflag]
    exact ih

/-- C8 witness. -/
theorem close_idempotent_witness :
    closeGo freshLife =
      (⟨true, true, true, true, none⟩, none,
        [.evConnClose, .evCloseDone, .evWgWait]) :=
  (close_idempotent freshLife rfl).1

/-- C9 counterexample.  The claim says the receive loop releases
`pendingMu` before the potentially blocking enqueue onto a waiter's
queue.  Dispatching a message to the live waiter `reg9` produces the
event trace lock, lookup, blocking-select, unlock — the unlock comes
after the blocking enqueue, so the lock is held across it. -/
theorem lock_held_across_enqueue_cex :
    ¬releasedBeforeBlockingSend (dispatchTrace reg9 msg9) := by
  decide

/-- C9 amended.  During delivery to a live (uncancelled) waiter the
receive loop holds `pendingMu` across the potentially blocking enqueue:
the dispatch trace is lock, lookup, blocking-select, unlock, with the
blocking select — a single `select` racing the enqueue only against that
waiter's own `done` signal — strictly inside the critical section. -/
theorem dispatch_lock_extent (r : Registry) (msg : Message) (p : PendingCh)
    (h : lookupTid r msg.tid = some p) (hd : p.doneClosed = false) :
    dispatchTrace r msg =
      [.evLock, .evLookup msg.tid, .evBlockingSelect msg.tid, .evUnlock] ∧
    ¬releasedBeforeBlockingSend (dispatchTrace r msg) := by
  have htr : dispatchTrace r msg =
      [.evLock, .evLookup msg.tid, .evBlockingSelect msg.tid, .evUnlock] := by
    unfold dispatchTrace
    rw [h]
    simp [hd]
  refine ⟨htr, ?_⟩
  rw [htr]
  intro hrel
  have h32 := hrel ⟨3, by simp⟩ ⟨2, by simp⟩ rfl rfl
  have h32n : (3 : Nat) < 2 := h32
  exact absurd h32n (by decide)

/-- C9 witness. -/
theorem dispatch_lock_extent_witness :
    dispatchTrace reg9 msg9 =
      [.evLock, .evLookup 7, .evBlockingSelect 7, .evUnlock] :=
  (dispatch_lock_extent reg9 msg9 ⟨false, [], false⟩ rfl rfl).1

/-- C10.  `Solicit` and `Request` always address their datagrams to the
fixed multicast constant `AllDHCPServers`: even for a client configured
through `WithBroadcastAddr` with an arbitrary destination, the configured
`serverAddr` field is set but ignored, and both operations' destination
is still `AllDHCPServers`. -/
theorem solicit_request_dest_fixed (a : Addr) :
    (withBroadcastAddr a defaultCfg).serverAddr = a ∧
    solicitDest (withBroadcastAddr a defaultCfg) = allDHCPServers ∧
    requestDest (withBroadcastAddr a defaultCfg) = allDHCPServers :=
  ⟨rfl, rfl, rfl⟩

end NClient6
